import Mathlib

/-!
# ParticleViscoplasticBody

A shallow embedding of `Projects/App_Viscoplasticity/ParticleViscoplasticBody.cpp`
(namespace `Physika`): the constructor's wiring statements, the per-step pipeline
`advance`, and the lifecycle operations `updateTopology`, `initialize`, `translate`
and `scale`.

The class is a template over `TDataType`; its `Real` is taken to be the rationals
(exact arithmetic) and its `Coord` a triple of them.  The solver modules the body
drives live in other files of the repository; their operations enter as a
parameter (`Collab`), so every statement below holds for all implementations.
-/

namespace Physika

/-! ## Scalars, coordinates, neighbor lists -/

/-- The scalar type `TDataType::Real`, over exact arithmetic. -/
abbrev Real := ℚ

/-- The vector type `TDataType::Coord`. -/
abbrev Coord := ℚ × ℚ × ℚ

/-- Per-particle lists of neighbor indices: the data of a neighborhood field. -/
abbrev Neighborhood := List (List Nat)

/-! ## The constructor (lines 19-67) -/

/-- Who owns a field: the body itself (`this`) or one of its five module members. -/
inductive Owner
  | body
  | m_integrator
  | m_nbrQuery
  | m_plasticity
  | m_pbdModule
  | m_visModule
  deriving DecidableEq, Repr

/-- The field members the constructor names. -/
inductive Member
  | m_position
  | m_velocity
  | m_force
  | m_forceDensity
  | m_horizon
  | m_radius
  | m_neighborhood
  | m_smoothingLength
  deriving DecidableEq, Repr

/-- A field: `owner->member` (or `this->member` for the body). -/
structure FieldId where
  owner : Owner
  member : Member
  deriving DecidableEq, Repr

/-- The three registration calls of the node the constructor uses for its modules. -/
inductive Registration
  | setNumericalIntegrator
  | addComputeModule
  | addConstraintModule
  deriving DecidableEq, Repr

/-- The two spatial representations: the body's particle set `m_pSet` and the
triangle set `triSet` of the child node `m_surfaceNode`. -/
inductive TopoId
  | m_pSet
  | triSet
  deriving DecidableEq, Repr

/-- One statement of the constructor body. -/
inductive CtorStmt
  | setValue (f : FieldId) (v : Real)
  | addModule (how : Registration) (m : Owner) (name : String)
  | connect (src tgt : FieldId)
  | setFrictionAngle (m : Owner) (v : Real)
  | setCohesion (m : Owner) (v : Real)
  | setViscosity (m : Owner) (v : Real)
  | createChild (name : String)
  | setTopologyModule (t : TopoId)
  | addVisualModule (r g b : Real)
  | setVisible (b : Bool)
  | addTopologyMapping (src tgt : TopoId)
  deriving DecidableEq, Repr

/-- A field of the body itself: `this->member`. -/
def own (m : Member) : FieldId := ⟨Owner.body, m⟩

/-- The constructor body, statement by statement, in source order (lines 23-66). -/
def ctor : List CtorStmt :=
  [ CtorStmt.setValue (own Member.m_horizon) (85 / 10000),
    -- integrator
    CtorStmt.addModule Registration.setNumericalIntegrator Owner.m_integrator "integrator",
    CtorStmt.connect (own Member.m_position) ⟨Owner.m_integrator, Member.m_position⟩,
    CtorStmt.connect (own Member.m_velocity) ⟨Owner.m_integrator, Member.m_velocity⟩,
    CtorStmt.connect (own Member.m_force) ⟨Owner.m_integrator, Member.m_forceDensity⟩,
    -- neighbor query
    CtorStmt.addModule Registration.addComputeModule Owner.m_nbrQuery "neighborhood",
    CtorStmt.connect (own Member.m_horizon) ⟨Owner.m_nbrQuery, Member.m_radius⟩,
    CtorStmt.connect (own Member.m_position) ⟨Owner.m_nbrQuery, Member.m_position⟩,
    -- elastoplasticity
    CtorStmt.addModule Registration.addConstraintModule Owner.m_plasticity "elastopolasticity",
    CtorStmt.connect (own Member.m_position) ⟨Owner.m_plasticity, Member.m_position⟩,
    CtorStmt.connect (own Member.m_velocity) ⟨Owner.m_plasticity, Member.m_velocity⟩,
    CtorStmt.connect ⟨Owner.m_nbrQuery, Member.m_neighborhood⟩
      ⟨Owner.m_plasticity, Member.m_neighborhood⟩,
    CtorStmt.setFrictionAngle Owner.m_plasticity 0,
    CtorStmt.setCohesion Owner.m_plasticity 0,
    -- density projection
    CtorStmt.addModule Registration.addConstraintModule Owner.m_pbdModule "pbd",
    CtorStmt.connect (own Member.m_horizon) ⟨Owner.m_pbdModule, Member.m_smoothingLength⟩,
    CtorStmt.connect (own Member.m_position) ⟨Owner.m_pbdModule, Member.m_position⟩,
    CtorStmt.connect (own Member.m_velocity) ⟨Owner.m_pbdModule, Member.m_velocity⟩,
    CtorStmt.connect ⟨Owner.m_nbrQuery, Member.m_neighborhood⟩
      ⟨Owner.m_pbdModule, Member.m_neighborhood⟩,
    -- implicit viscosity
    CtorStmt.addModule Registration.addConstraintModule Owner.m_visModule "viscosity",
    CtorStmt.setViscosity Owner.m_visModule 1,
    CtorStmt.connect (own Member.m_horizon) ⟨Owner.m_visModule, Member.m_smoothingLength⟩,
    CtorStmt.connect (own Member.m_position) ⟨Owner.m_visModule, Member.m_position⟩,
    CtorStmt.connect (own Member.m_velocity) ⟨Owner.m_visModule, Member.m_velocity⟩,
    CtorStmt.connect ⟨Owner.m_nbrQuery, Member.m_neighborhood⟩
      ⟨Owner.m_visModule, Member.m_neighborhood⟩,
    -- presentation child
    CtorStmt.createChild "Mesh",
    CtorStmt.setTopologyModule TopoId.triSet,
    CtorStmt.addVisualModule (2 / 10) (6 / 10) 1,
    CtorStmt.setVisible false,
    CtorStmt.addTopologyMapping TopoId.m_pSet TopoId.triSet ]

/-- The modules a statement list registers with the node, in order. -/
def modulesOf : List CtorStmt → List Owner
  | [] => []
  | CtorStmt.addModule _ m _ :: rest => m :: modulesOf rest
  | _ :: rest => modulesOf rest

/-- The connections `(source, target)` a statement list registers, in order. -/
def connectionsOf : List CtorStmt → List (FieldId × FieldId)
  | [] => []
  | CtorStmt.connect s t :: rest => (s, t) :: connectionsOf rest
  | _ :: rest => connectionsOf rest

/-- The fields a statement list writes directly with `setValue`. -/
def writtenBy : List CtorStmt → List (FieldId × Real)
  | [] => []
  | CtorStmt.setValue f v :: rest => (f, v) :: writtenBy rest
  | _ :: rest => writtenBy rest

/-- The topology mappings a statement list registers, in order. -/
def mappingsOf : List CtorStmt → List (TopoId × TopoId)
  | [] => []
  | CtorStmt.addTopologyMapping s t :: rest => (s, t) :: mappingsOf rest
  | _ :: rest => mappingsOf rest

/-- The wiring graph the constructor leaves behind. -/
def wiring : List (FieldId × FieldId) := connectionsOf ctor

/-- One connection `src.connect(tgt)` is an edge of the wiring graph. -/
def Edge (s t : FieldId) : Prop := (s, t) ∈ wiring

instance (s t : FieldId) : Decidable (Edge s t) := by
  unfold Edge; infer_instance

/-- The connections that feed a field. -/
def feeders (w : List (FieldId × FieldId)) (f : FieldId) : List FieldId :=
  (w.filter (fun e => e.2 = f)).map Prod.fst

/-- The connections as the specification lists them, source by source: position,
velocity, force, horizon, and the neighborhood the neighbor search produces. -/
def specWiring : List (FieldId × FieldId) :=
  [ (own Member.m_position, ⟨Owner.m_integrator, Member.m_position⟩),
    (own Member.m_position, ⟨Owner.m_nbrQuery, Member.m_position⟩),
    (own Member.m_position, ⟨Owner.m_plasticity, Member.m_position⟩),
    (own Member.m_position, ⟨Owner.m_pbdModule, Member.m_position⟩),
    (own Member.m_position, ⟨Owner.m_visModule, Member.m_position⟩),
    (own Member.m_velocity, ⟨Owner.m_integrator, Member.m_velocity⟩),
    (own Member.m_velocity, ⟨Owner.m_plasticity, Member.m_velocity⟩),
    (own Member.m_velocity, ⟨Owner.m_pbdModule, Member.m_velocity⟩),
    (own Member.m_velocity, ⟨Owner.m_visModule, Member.m_velocity⟩),
    (own Member.m_force, ⟨Owner.m_integrator, Member.m_forceDensity⟩),
    (own Member.m_horizon, ⟨Owner.m_nbrQuery, Member.m_radius⟩),
    (own Member.m_horizon, ⟨Owner.m_pbdModule, Member.m_smoothingLength⟩),
    (own Member.m_horizon, ⟨Owner.m_visModule, Member.m_smoothingLength⟩),
    (⟨Owner.m_nbrQuery, Member.m_neighborhood⟩, ⟨Owner.m_plasticity, Member.m_neighborhood⟩),
    (⟨Owner.m_nbrQuery, Member.m_neighborhood⟩, ⟨Owner.m_pbdModule, Member.m_neighborhood⟩),
    (⟨Owner.m_nbrQuery, Member.m_neighborhood⟩, ⟨Owner.m_visModule, Member.m_neighborhood⟩) ]

/-- The inputs of the five modules, as section 4.2 of the specification lists what
each consumes. -/
def moduleInputs : List FieldId :=
  [ ⟨Owner.m_integrator, Member.m_position⟩,
    ⟨Owner.m_integrator, Member.m_velocity⟩,
    ⟨Owner.m_integrator, Member.m_forceDensity⟩,
    ⟨Owner.m_nbrQuery, Member.m_position⟩,
    ⟨Owner.m_nbrQuery, Member.m_radius⟩,
    ⟨Owner.m_plasticity, Member.m_position⟩,
    ⟨Owner.m_plasticity, Member.m_velocity⟩,
    ⟨Owner.m_plasticity, Member.m_neighborhood⟩,
    ⟨Owner.m_pbdModule, Member.m_smoothingLength⟩,
    ⟨Owner.m_pbdModule, Member.m_position⟩,
    ⟨Owner.m_pbdModule, Member.m_velocity⟩,
    ⟨Owner.m_pbdModule, Member.m_neighborhood⟩,
    ⟨Owner.m_visModule, Member.m_smoothingLength⟩,
    ⟨Owner.m_visModule, Member.m_position⟩,
    ⟨Owner.m_visModule, Member.m_velocity⟩,
    ⟨Owner.m_visModule, Member.m_neighborhood⟩ ]

/-- How far down the wiring graph a field sits: a field a module reads is below the
field that feeds it. -/
def depth (f : FieldId) : Nat :=
  if f ∈ wiring.map Prod.snd then 1 else 0

/-! ## Run-time state -/

/-- Modelled from the spec: the topology mapping class is not part of this file.
Section 3 and section 6 of the specification give its contract: a one-way
transform from a source representation to a target one, whose `apply()` reads the
source points and overwrites the target vertices, never mutating the source. -/
structure TopologyMapping where
  src : TopoId
  tgt : TopoId
  push : List Coord → List Coord

/-- The data a `ParticleViscoplasticBody` owns or reaches.  A connected field has no
storage of its own (see `observe`), so only the sources of the wiring graph appear:
the four fields of the body and the output field of the neighbor query.  `priv` is
whatever else the collaborator modules keep (rest shape, accumulators, ...). -/
structure ParticleViscoplasticBody (μ : Type) where
  m_position : List Coord
  m_velocity : List Coord
  m_force : List Coord
  m_horizon : Real
  m_neighborhood : Neighborhood
  m_pSet : List Coord
  triSet : List Coord
  topologyMappings : List TopologyMapping
  visible : Bool
  priv : μ

/-- What a field holds. -/
inductive Value
  | real (r : Real)
  | coords (xs : List Coord)
  | neighbors (n : Neighborhood)
  | unset
  deriving DecidableEq, Repr

/-- The field that feeds `f` through `n` connections at most, `f` itself if none does. -/
def rootOf (w : List (FieldId × FieldId)) : Nat → FieldId → FieldId
  | 0, f => f
  | n + 1, f =>
    match w.find? (fun e => e.2 = f) with
    | some e => rootOf w n e.1
    | none => f

/-- The storage of a source field. -/
def ParticleViscoplasticBody.slot {μ : Type} (s : ParticleViscoplasticBody μ) :
    FieldId → Value
  | ⟨Owner.body, Member.m_position⟩ => Value.coords s.m_position
  | ⟨Owner.body, Member.m_velocity⟩ => Value.coords s.m_velocity
  | ⟨Owner.body, Member.m_force⟩ => Value.coords s.m_force
  | ⟨Owner.body, Member.m_horizon⟩ => Value.real s.m_horizon
  | ⟨Owner.m_nbrQuery, Member.m_neighborhood⟩ => Value.neighbors s.m_neighborhood
  | _ => Value.unset

/-- Modelled from the spec: the field class and its `connect` are not part of this
file.  Section 3 of the specification: "a Field's value is the single source of truth
for all connected consumers", and "a consumer never reads a stale value it was
already connected to receive".  So what a module observes at a field is the value
held by the field at the head of the chain of connections that feeds it. -/
def ParticleViscoplasticBody.observe {μ : Type} (s : ParticleViscoplasticBody μ)
    (f : FieldId) : Value :=
  s.slot (rootOf wiring wiring.length f)

/-- The effect of one constructor statement on the run-time data.  Registering a
module, connecting two fields and configuring a module change the wiring and the
modules, not the data kept here. -/
def applyStmt {μ : Type} (surfaceMapping : List Coord → List Coord)
    (s : ParticleViscoplasticBody μ) : CtorStmt → ParticleViscoplasticBody μ
  | CtorStmt.setValue ⟨Owner.body, Member.m_horizon⟩ v => { s with m_horizon := v }
  | CtorStmt.setTopologyModule TopoId.triSet => { s with triSet := [] }
  | CtorStmt.setVisible b => { s with visible := b }
  | CtorStmt.addTopologyMapping a b =>
    { s with topologyMappings := s.topologyMappings ++ [⟨a, b, surfaceMapping⟩] }
  | _ => s

/-- The body as the constructor leaves it, from the body `base` that the base-class
constructor `ParticleSystem(name)` produced; `surfaceMapping` is the transform of the
`PointSetToPointSet` mapping built at line 65. -/
def ParticleViscoplasticBody.construct {μ : Type} (base : ParticleViscoplasticBody μ)
    (surfaceMapping : List Coord → List Coord) : ParticleViscoplasticBody μ :=
  ctor.foldl (applyStmt surfaceMapping) base

/-! ## Calls into the collaborators -/

/-- The objects the body calls into: its five modules, its base class
`ParticleSystem<TDataType>`, and the triangle set of the child node. -/
inductive Receiver
  | m_integrator
  | m_nbrQuery
  | m_plasticity
  | m_pbdModule
  | m_visModule
  | ParticleSystem
  | triSet
  deriving DecidableEq, Repr

/-- The methods the body calls (`end_` and `initialize_` stand for `end` and
`initialize`, which are reserved words here). -/
inductive Method
  | begin_
  | integrate
  | end_
  | compute
  | solveElasticity
  | applyPlasticity
  | resetRestShape
  | constrain
  | initialize_
  | translate
  | scale
  deriving DecidableEq, Repr

/-- The argument of a call. -/
inductive Arg
  | none
  | coord (t : Coord)
  | real (x : Real)
  deriving DecidableEq, Repr

/-- One call `receiver->method(arg)`. -/
structure Call where
  receiver : Receiver
  method : Method
  arg : Arg
  deriving DecidableEq, Repr

/-- How a call into a collaborator ends: it returns, reporting a status (the `bool`
most module operations return; of no meaning for a `void` one) and leaving the body
in a new state, or it does not return (a C++ exception leaves through the caller),
leaving the body in whatever state it reached. -/
inductive Outcome (σ : Type)
  | returned (status : Bool) (s : σ)
  | thrown (s : σ)

/-- The collaborators: what every call does to the body.  Their code is outside this
file, so they are a parameter. -/
abbrev Collab (μ : Type) := Call → ParticleViscoplasticBody μ → Outcome (ParticleViscoplasticBody μ)

/-- A record of one call: the call, the state it found and the state it left. -/
structure Event (μ : Type) where
  call : Call
  pre : ParticleViscoplasticBody μ
  post : ParticleViscoplasticBody μ

/-- The result of running a method of the body: it ran to its end with value `a`, or
a collaborator threw and the method was left at that point.  Either way: the state
reached and the calls made, oldest first. -/
inductive Result (μ α : Type)
  | done (a : α) (s : ParticleViscoplasticBody μ) (log : List (Event μ))
  | aborted (s : ParticleViscoplasticBody μ) (log : List (Event μ))

/-- The calls made. -/
def Result.log {μ α : Type} : Result μ α → List (Event μ)
  | Result.done _ _ l => l
  | Result.aborted _ l => l

/-- The state reached. -/
def Result.state {μ α : Type} : Result μ α → ParticleViscoplasticBody μ
  | Result.done _ s _ => s
  | Result.aborted s _ => s

/-- The value returned, if the method returned. -/
def Result.value {μ α : Type} : Result μ α → Option α
  | Result.done a _ _ => some a
  | Result.aborted _ _ => none

/-- The sequence of calls made, without the states. -/
def Result.calls {μ α : Type} (r : Result μ α) : List Call :=
  r.log.map Event.call

/-- A piece of a method of the body. -/
def Prog (μ α : Type) := ParticleViscoplasticBody μ → Result μ α

/-- Sequencing of statements: the second runs on the state the first left, unless the
first was left by an exception. -/
def Prog.bind {μ α β : Type} (p : Prog μ α) (f : α → Prog μ β) : Prog μ β := fun s =>
  match p s with
  | Result.done a s1 l1 =>
    match f a s1 with
    | Result.done b s2 l2 => Result.done b s2 (l1 ++ l2)
    | Result.aborted s2 l2 => Result.aborted s2 (l1 ++ l2)
  | Result.aborted s1 l1 => Result.aborted s1 l1

instance (μ : Type) : Monad (Prog μ) where
  pure a := fun s => Result.done a s []
  bind := Prog.bind

/-- The statement `receiver->method(arg)`: its value is the status returned. -/
def invoke {μ : Type} (c : Collab μ) (r : Receiver) (m : Method) (a : Arg) :
    Prog μ Bool := fun s =>
  match c ⟨r, m, a⟩ s with
  | Outcome.returned b s1 => Result.done b s1 [⟨⟨r, m, a⟩, s, s1⟩]
  | Outcome.thrown s1 => Result.aborted s1 [⟨⟨r, m, a⟩, s, s1⟩]

/-! ## The methods of the body -/

/-- `advance(Real dt)`, lines 75-92.  Every call is a statement of its own: what it
returns is dropped. -/
def ParticleViscoplasticBody.advance {μ : Type} (c : Collab μ) (_dt : Real) : Prog μ Unit := do
  let _ ← invoke c Receiver.m_integrator Method.begin_ Arg.none
  let _ ← invoke c Receiver.m_integrator Method.integrate Arg.none
  let _ ← invoke c Receiver.m_nbrQuery Method.compute Arg.none
  let _ ← invoke c Receiver.m_plasticity Method.solveElasticity Arg.none
  let _ ← invoke c Receiver.m_nbrQuery Method.compute Arg.none
  let _ ← invoke c Receiver.m_plasticity Method.applyPlasticity Arg.none
  let _ ← invoke c Receiver.m_plasticity Method.resetRestShape Arg.none
  let _ ← invoke c Receiver.m_visModule Method.constrain Arg.none
  let _ ← invoke c Receiver.m_integrator Method.end_ Arg.none
  pure ()

/-- `initialize()`, lines 107-114: the value is that of the base-class call. -/
def ParticleViscoplasticBody.initialize {μ : Type} (c : Collab μ) : Prog μ Bool := do
  let _ ← invoke c Receiver.m_nbrQuery Method.initialize_ Arg.none
  let _ ← invoke c Receiver.m_nbrQuery Method.compute Arg.none
  invoke c Receiver.ParticleSystem Method.initialize_ Arg.none

/-- `translate(Coord t)`, lines 122-128. -/
def ParticleViscoplasticBody.translate {μ : Type} (c : Collab μ) (t : Coord) : Prog μ Bool := do
  let _ ← invoke c Receiver.triSet Method.translate (Arg.coord t)
  invoke c Receiver.ParticleSystem Method.translate (Arg.coord t)

/-- `scale(Real s)`, lines 130-136. -/
def ParticleViscoplasticBody.scale {μ : Type} (c : Collab μ) (x : Real) : Prog μ Bool := do
  let _ ← invoke c Receiver.triSet Method.scale (Arg.real x)
  invoke c Receiver.ParticleSystem Method.scale (Arg.real x)

/-- The points of a topology. -/
def ParticleViscoplasticBody.points {μ : Type} (s : ParticleViscoplasticBody μ) :
    TopoId → List Coord
  | TopoId.m_pSet => s.m_pSet
  | TopoId.triSet => s.triSet

/-- Overwrite the points of a topology. -/
def ParticleViscoplasticBody.setPoints {μ : Type} (s : ParticleViscoplasticBody μ)
    (t : TopoId) (pts : List Coord) : ParticleViscoplasticBody μ :=
  match t with
  | TopoId.m_pSet => { s with m_pSet := pts }
  | TopoId.triSet => { s with triSet := pts }

/-- Modelled from the spec: `TopologyMapping::apply()` is not part of this file; by
section 6 it reads the source points and overwrites the target vertices. -/
def TopologyMapping.apply {μ : Type} (m : TopologyMapping) (s : ParticleViscoplasticBody μ) :
    ParticleViscoplasticBody μ :=
  s.setPoints m.tgt (m.push (s.points m.src))

/-- Modelled from the spec: `Function1Pt::copy` and the array type it copies are not
part of this file.  Section 4.4 of the specification: the first statement of
`updateTopology()` "copies the Body's current position Field into its particle-set
topology representation". -/
def ParticleViscoplasticBody.copyPosition {μ : Type} (s : ParticleViscoplasticBody μ) :
    ParticleViscoplasticBody μ :=
  { s with m_pSet := s.m_position }

/-- `updateTopology()`, lines 94-105: the position field is copied into the points of
`m_pSet` (lines 97-98), then every mapping of the list is applied, first to last
(lines 100-104). -/
def ParticleViscoplasticBody.updateTopology {μ : Type} (s : ParticleViscoplasticBody μ) :
    ParticleViscoplasticBody μ :=
  s.topologyMappings.foldl (fun st m => m.apply st) s.copyPosition

/-- A call without argument. -/
def op (r : Receiver) (m : Method) : Call := ⟨r, m, Arg.none⟩

/-- The nine steps of section 4.3 of the specification, in its order. -/
def pipeline : List Call :=
  [ op Receiver.m_integrator Method.begin_,
    op Receiver.m_integrator Method.integrate,
    op Receiver.m_nbrQuery Method.compute,
    op Receiver.m_plasticity Method.solveElasticity,
    op Receiver.m_nbrQuery Method.compute,
    op Receiver.m_plasticity Method.applyPlasticity,
    op Receiver.m_plasticity Method.resetRestShape,
    op Receiver.m_visModule Method.constrain,
    op Receiver.m_integrator Method.end_ ]

/-- The result `r`, with the call `e` made before it. -/
def Result.prepend {μ α : Type} (e : Event μ) : Result μ α → Result μ α
  | Result.done a s l => Result.done a s (e :: l)
  | Result.aborted s l => Result.aborted s (e :: l)

/-- Running a list of calls one after the other, each on the state the one before
left, whatever status it returned, up to the first that throws. -/
def runCalls {μ : Type} (c : Collab μ) : List Call → Prog μ Unit
  | [], s => Result.done () s []
  | k :: ks, s =>
    match c k s with
    | Outcome.returned _ s1 => (runCalls c ks s1).prepend ⟨k, s, s1⟩
    | Outcome.thrown s1 => Result.aborted s1 [⟨k, s, s1⟩]

/-- The three steps of `initialize()` as section 4.4 of the specification words them:
the neighbor search's one-time setup, an initial `compute()`, then the generic
particle-system initialization. -/
def initSequence : List Call :=
  [ op Receiver.m_nbrQuery Method.initialize_,
    op Receiver.m_nbrQuery Method.compute,
    op Receiver.ParticleSystem Method.initialize_ ]

/-! ## Concrete bodies and collaborators -/

/-- A body of one particle at rest at the origin, nothing mapped. -/
def body1 : ParticleViscoplasticBody Unit :=
  { m_position := [(0, 0, 0)]
    m_velocity := [(0, 0, 0)]
    m_force := [(0, 0, 0)]
    m_horizon := 85 / 10000
    m_neighborhood := [[]]
    m_pSet := [(0, 0, 0)]
    triSet := []
    topologyMappings := []
    visible := false
    priv := () }

/-- Collaborators that all return and leave the body as it is; the integrator's
`integrate()` reports failure (status `false`), every other call success. -/
def integrateFails : Collab Unit := fun k s =>
  Outcome.returned (decide (k ≠ op Receiver.m_integrator Method.integrate)) s

/-- Collaborators whose neighbor query throws in `compute()`; every other call
returns success. -/
def computeThrows : Collab Unit := fun k s =>
  if k = op Receiver.m_nbrQuery Method.compute then Outcome.thrown s
  else Outcome.returned true s

/-- Collaborators that all return and leave the body as it is; the one-time setup of
the neighbor query reports failure (status `false`), every other call success. -/
def setupFails : Collab Unit := fun k s =>
  Outcome.returned (decide (k ≠ op Receiver.m_nbrQuery Method.initialize_)) s

/-- Collaborators that all return success; every `compute()` of the neighbor query
writes a neighborhood it has not written before (one more entry than it found), and
no other call touches the body. -/
def freshQuery : Collab Unit := fun k s =>
  if k = op Receiver.m_nbrQuery Method.compute then
    Outcome.returned true { s with m_neighborhood := [s.m_neighborhood.length] :: s.m_neighborhood }
  else Outcome.returned true s

/-- A body of two particles that have moved since the particle set was last written;
nothing mapped yet. -/
def body2 : ParticleViscoplasticBody Unit :=
  { m_position := [(1, 0, 0), (0, 1, 0)]
    m_velocity := [(0, 0, 0), (0, 0, 0)]
    m_force := [(0, 0, 0), (0, 0, 0)]
    m_horizon := 0
    m_neighborhood := [[1], [0]]
    m_pSet := [(0, 0, 0), (0, 0, 0)]
    triSet := [(5, 5, 5)]
    topologyMappings := []
    visible := true
    priv := () }

/-- Modelled from the spec: `TriangleSet::translate`, `TriangleSet::scale` and the
base-class `ParticleSystem::translate`, `ParticleSystem::scale` are not part of this
file.  Section 4.4 of the specification: they "apply a rigid translation or uniform
scale" to the presentation mesh topology and to the particle-set topology: every
vertex, every point, is moved by the offset or multiplied by the factor.  Every other
call is left to `rest`. -/
def rigid {μ : Type} (rest : Collab μ) : Collab μ := fun k s =>
  match k with
  | ⟨Receiver.triSet, Method.translate, Arg.coord t⟩ =>
    Outcome.returned true { s with triSet := s.triSet.map (fun p => p + t) }
  | ⟨Receiver.ParticleSystem, Method.translate, Arg.coord t⟩ =>
    Outcome.returned true { s with m_pSet := s.m_pSet.map (fun p => p + t) }
  | ⟨Receiver.triSet, Method.scale, Arg.real x⟩ =>
    Outcome.returned true { s with triSet := s.triSet.map (fun p => x • p) }
  | ⟨Receiver.ParticleSystem, Method.scale, Arg.real x⟩ =>
    Outcome.returned true { s with m_pSet := s.m_pSet.map (fun p => x • p) }
  | k => rest k s

/-! ## Lemmas on sequencing -/

theorem invoke_bind {μ β : Type} (c : Collab μ) (r : Receiver) (m : Method) (a : Arg)
    (f : Bool → Prog μ β) (s : ParticleViscoplasticBody μ) :
    (invoke c r m a >>= f) s =
      match c ⟨r, m, a⟩ s with
      | Outcome.returned b s1 => (f b s1).prepend ⟨⟨r, m, a⟩, s, s1⟩
      | Outcome.thrown s1 => Result.aborted s1 [⟨⟨r, m, a⟩, s, s1⟩] := by
  show Prog.bind (invoke c r m a) f s = _
  unfold Prog.bind invoke
  cases h : c ⟨r, m, a⟩ s with
  | returned b s1 =>
    simp only []
    cases f b s1 <;> simp [Result.prepend]
  | thrown s1 => simp

theorem pure_apply {μ α : Type} (a : α) (s : ParticleViscoplasticBody μ) :
    (pure a : Prog μ α) s = Result.done a s [] := rfl

/-- The source's `advance` is the run of the specification's nine steps. -/
theorem advance_eq_runCalls {μ : Type} (c : Collab μ) (dt : Real)
    (s : ParticleViscoplasticBody μ) :
    ParticleViscoplasticBody.advance c dt s = runCalls c pipeline s := by
  unfold ParticleViscoplasticBody.advance
  simp only [invoke_bind, pure_apply, pipeline, runCalls, op]

theorem calls_prepend {μ α : Type} (e : Event μ) (r : Result μ α) :
    (r.prepend e).calls = e.call :: r.calls := by
  cases r <;> rfl

theorem log_prepend {μ α : Type} (e : Event μ) (r : Result μ α) :
    (r.prepend e).log = e :: r.log := by
  cases r <;> rfl

theorem value_prepend {μ α : Type} (e : Event μ) (r : Result μ α) :
    (r.prepend e).value = r.value := by
  cases r <;> rfl

theorem state_prepend {μ α : Type} (e : Event μ) (r : Result μ α) :
    (r.prepend e).state = r.state := by
  cases r <;> rfl

/-- The calls made by a run are an initial segment of the calls asked for. -/
theorem runCalls_calls_initial {μ : Type} (c : Collab μ) (ks : List Call)
    (s : ParticleViscoplasticBody μ) : (runCalls c ks s).calls <+: ks := by
  induction ks generalizing s with
  | nil => simp [runCalls, Result.calls, Result.log]
  | cons k ks ih =>
    unfold runCalls
    cases h : c k s with
    | returned b s1 =>
      simp only [calls_prepend]
      exact (List.prefix_cons_inj k).mpr (ih s1)
    | thrown s1 =>
      simp [Result.calls, Result.log]

/-- A run that reaches its end has made every call asked for. -/
theorem runCalls_calls_of_done {μ : Type} (c : Collab μ) (ks : List Call)
    (s : ParticleViscoplasticBody μ) (h : (runCalls c ks s).value = some ()) :
    (runCalls c ks s).calls = ks := by
  induction ks generalizing s with
  | nil => simp [runCalls, Result.calls, Result.log]
  | cons k ks ih =>
    unfold runCalls at h ⊢
    cases hk : c k s with
    | returned b s1 =>
      rw [hk] at h
      simp only [value_prepend] at h
      simp only [calls_prepend, ih s1 h]
    | thrown s1 =>
      rw [hk] at h
      simp [Result.value] at h

/-- When every call among `ks` returns, whatever status it reports, the run reaches
its end. -/
theorem runCalls_done_of_returns {μ : Type} (c : Collab μ) (ks : List Call)
    (s : ParticleViscoplasticBody μ)
    (h : ∀ k ∈ ks, ∀ s0, ∃ b s1, c k s0 = Outcome.returned b s1) :
    (runCalls c ks s).value = some () := by
  induction ks generalizing s with
  | nil => rfl
  | cons k ks ih =>
    obtain ⟨b, s1, hk⟩ := h k (List.mem_cons_self k ks) s
    unfold runCalls
    rw [hk]
    simp only [value_prepend]
    exact ih s1 (fun k' hk' => h k' (List.mem_cons_of_mem k hk'))

/-- A call that throws is the last one made: the run is left there, in the state the
call left, and the calls made are those up to and including it. -/
theorem runCalls_thrown {μ : Type} (c : Collab μ) (ks : List Call)
    (s : ParticleViscoplasticBody μ) (n : Nat) (e : Event μ)
    (he : (runCalls c ks s).log[n]? = some e)
    (hthrow : c e.call e.pre = Outcome.thrown e.post) :
    (runCalls c ks s).value = none ∧ (runCalls c ks s).state = e.post ∧
      (runCalls c ks s).calls = ks.take (n + 1) := by
  induction ks generalizing s n with
  | nil => simp [runCalls, Result.log] at he
  | cons k ks ih =>
    unfold runCalls at he ⊢
    cases hk : c k s with
    | returned b s1 =>
      rw [hk] at he
      simp only [log_prepend] at he
      cases n with
      | zero =>
        simp at he
        subst he
        simp [hk] at hthrow
      | succ n =>
        simp only [List.getElem?_cons_succ] at he
        obtain ⟨h1, h2, h3⟩ := ih s1 n he
        simp only [value_prepend, state_prepend, calls_prepend, h1, h2, h3]
        simp
    | thrown s1 =>
      rw [hk] at he
      cases n with
      | zero =>
        simp [Result.log] at he
        subst he
        simp [Result.value, Result.state, Result.calls, Result.log]
      | succ n => simp [Result.log] at he

/-- Every call of the log that is not the last one returned; each call ran on the
state the log records for it. -/
theorem runCalls_log_faithful {μ : Type} (c : Collab μ) (ks : List Call)
    (s : ParticleViscoplasticBody μ) (e : Event μ) (he : e ∈ (runCalls c ks s).log) :
    (∃ b, c e.call e.pre = Outcome.returned b e.post) ∨
      c e.call e.pre = Outcome.thrown e.post := by
  induction ks generalizing s with
  | nil => simp [runCalls, Result.log] at he
  | cons k ks ih =>
    unfold runCalls at he
    cases hk : c k s with
    | returned b s1 =>
      rw [hk] at he
      simp only [log_prepend, List.mem_cons] at he
      rcases he with rfl | he
      · exact Or.inl ⟨b, hk⟩
      · exact ih s1 he
    | thrown s1 =>
      rw [hk] at he
      simp only [Result.log, List.mem_singleton] at he
      subst he
      exact Or.inr hk

/-- A run is cut short only by a call that throws: it is then the last of the log. -/
theorem runCalls_aborted {μ : Type} (c : Collab μ) (ks : List Call)
    (s : ParticleViscoplasticBody μ) (h : (runCalls c ks s).value = none) :
    ∃ e, (runCalls c ks s).log.getLast? = some e ∧
      c e.call e.pre = Outcome.thrown e.post := by
  induction ks generalizing s with
  | nil => simp [runCalls, Result.value] at h
  | cons k ks ih =>
    unfold runCalls at h ⊢
    cases hk : c k s with
    | returned b s1 =>
      rw [hk] at h
      simp only [value_prepend] at h
      obtain ⟨e, he, hthrow⟩ := ih s1 h
      refine ⟨e, ?_, hthrow⟩
      simp only [log_prepend]
      rw [List.getLast?_cons, he]
      rfl
    | thrown s1 =>
      exact ⟨⟨k, s, s1⟩, by simp [Result.log], hk⟩

/-- The first call of a run is made on the state the run starts from. -/
theorem runCalls_log_head {μ : Type} (c : Collab μ) (ks : List Call)
    (s : ParticleViscoplasticBody μ) (e : Event μ)
    (he : (runCalls c ks s).log[0]? = some e) : e.pre = s := by
  cases ks with
  | nil => simp [runCalls, Result.log] at he
  | cons k ks =>
    have hdef : runCalls c (k :: ks) s =
        match c k s with
        | Outcome.returned _ s1 => (runCalls c ks s1).prepend ⟨k, s, s1⟩
        | Outcome.thrown s1 => Result.aborted s1 [⟨k, s, s1⟩] := rfl
    rw [hdef] at he
    cases hk : c k s with
    | returned b s1 =>
      rw [hk] at he
      simp only [log_prepend, List.getElem?_cons_zero, Option.some.injEq] at he
      subst he
      rfl
    | thrown s1 =>
      rw [hk] at he
      simp only [Result.log, List.getElem?_cons_zero, Option.some.injEq] at he
      subst he
      rfl

/-- Two calls that follow each other in the log: the first returned, and the second
was made on the state the first left. -/
theorem runCalls_log_chain {μ : Type} (c : Collab μ) (ks : List Call)
    (s : ParticleViscoplasticBody μ) (i : Nat) (e e' : Event μ)
    (he : (runCalls c ks s).log[i]? = some e)
    (he' : (runCalls c ks s).log[i + 1]? = some e') :
    e'.pre = e.post ∧ ∃ b, c e.call e.pre = Outcome.returned b e.post := by
  induction ks generalizing s i with
  | nil => simp [runCalls, Result.log] at he
  | cons k ks ih =>
    have hdef : runCalls c (k :: ks) s =
        match c k s with
        | Outcome.returned _ s1 => (runCalls c ks s1).prepend ⟨k, s, s1⟩
        | Outcome.thrown s1 => Result.aborted s1 [⟨k, s, s1⟩] := rfl
    rw [hdef] at he he'
    cases hk : c k s with
    | returned b s1 =>
      rw [hk] at he he'
      simp only [log_prepend, List.getElem?_cons_succ] at he he'
      cases i with
      | zero =>
        simp only [List.getElem?_cons_zero, Option.some.injEq] at he
        subst he
        exact ⟨runCalls_log_head c ks s1 e' he', b, hk⟩
      | succ i =>
        simp only [List.getElem?_cons_succ] at he
        exact ih s1 i he he'
    | thrown s1 =>
      rw [hk] at he'
      simp [Result.log] at he'

/-- The state a run reaches is the one its last call left (the starting state, when
no call was made). -/
theorem runCalls_state_eq {μ : Type} (c : Collab μ) (ks : List Call)
    (s : ParticleViscoplasticBody μ) :
    (runCalls c ks s).state =
      (((runCalls c ks s).log.getLast?).map Event.post).getD s := by
  induction ks generalizing s with
  | nil => rfl
  | cons k ks ih =>
    have hdef : runCalls c (k :: ks) s =
        match c k s with
        | Outcome.returned _ s1 => (runCalls c ks s1).prepend ⟨k, s, s1⟩
        | Outcome.thrown s1 => Result.aborted s1 [⟨k, s, s1⟩] := rfl
    rw [hdef]
    cases hk : c k s with
    | returned b s1 =>
      simp only [state_prepend, log_prepend, ih s1, List.getLast?_cons]
      cases (runCalls c ks s1).log.getLast? <;> rfl
    | thrown s1 => rfl

theorem runCalls_state_last {μ : Type} (c : Collab μ) (ks : List Call)
    (s : ParticleViscoplasticBody μ) (e : Event μ)
    (he : (runCalls c ks s).log.getLast? = some e) :
    (runCalls c ks s).state = e.post := by
  rw [runCalls_state_eq, he]
  rfl

theorem prefix_getElem? {α : Type} {l L : List α} (h : l <+: L) {i : Nat} {x : α}
    (hx : l[i]? = some x) : L[i]? = some x := by
  obtain ⟨t, rfl⟩ := h
  have hi : i < l.length := by
    rcases Nat.lt_or_ge i l.length with hi | hi
    · exact hi
    · rw [List.getElem?_eq_none hi] at hx
      cases hx
  rw [List.getElem?_append_left hi]
  exact hx

theorem prefix_getElem?_lt {α : Type} {l L : List α} (h : l <+: L) {i : Nat}
    (hi : i < l.length) : l[i]? = L[i]? := by
  obtain ⟨t, rfl⟩ := h
  rw [List.getElem?_append_left hi]

theorem pipeline_resetRestShape_at {i : Nat}
    (h : pipeline[i]? = some (op Receiver.m_plasticity Method.resetRestShape)) : i = 6 := by
  have hi : i < 9 := by
    rcases Nat.lt_or_ge i 9 with hi | hi
    · exact hi
    · rw [List.getElem?_eq_none (by simpa [pipeline] using hi)] at h
      cases h
  interval_cases i <;> first | rfl | (exfalso; revert h; decide)

theorem pipeline_applyPlasticity_at {j : Nat}
    (h : pipeline[j]? = some (op Receiver.m_plasticity Method.applyPlasticity)) : j = 5 := by
  have hj : j < 9 := by
    rcases Nat.lt_or_ge j 9 with hj | hj
    · exact hj
    · rw [List.getElem?_eq_none (by simpa [pipeline] using hj)] at h
      cases h
  interval_cases j <;> first | rfl | (exfalso; revert h; decide)

/-! ## The step pipeline -/

/-- C1: whatever the body state, the timestep and the collaborators, the calls one
`advance(dt)` makes are an initial segment of the nine steps of the specification, in
its order, and exactly those nine when `advance` returns, which it does as soon as
every collaborator call returns.  `resetRestShape` is called only after
`applyPlasticity` (at an index above every index of `applyPlasticity`, and only if
`applyPlasticity` was called), and no call goes to the density-projection module. -/
theorem advance_call_sequence {μ : Type} (c : Collab μ) (dt : Real)
    (s : ParticleViscoplasticBody μ) :
    (ParticleViscoplasticBody.advance c dt s).calls <+: pipeline ∧
    ((ParticleViscoplasticBody.advance c dt s).value = some () →
      (ParticleViscoplasticBody.advance c dt s).calls = pipeline) ∧
    ((∀ k ∈ pipeline, ∀ s0, ∃ b s1, c k s0 = Outcome.returned b s1) →
      (ParticleViscoplasticBody.advance c dt s).value = some ()) ∧
    (∀ i j : Nat,
      (ParticleViscoplasticBody.advance c dt s).calls[i]? =
          some (op Receiver.m_plasticity Method.resetRestShape) →
      (ParticleViscoplasticBody.advance c dt s).calls[j]? =
          some (op Receiver.m_plasticity Method.applyPlasticity) → j < i) ∧
    (op Receiver.m_plasticity Method.resetRestShape ∈
        (ParticleViscoplasticBody.advance c dt s).calls →
      op Receiver.m_plasticity Method.applyPlasticity ∈
        (ParticleViscoplasticBody.advance c dt s).calls) ∧
    (∀ k ∈ (ParticleViscoplasticBody.advance c dt s).calls,
      k.receiver ≠ Receiver.m_pbdModule) := by
  rw [advance_eq_runCalls]
  have hpre := runCalls_calls_initial c pipeline s
  refine ⟨hpre, runCalls_calls_of_done c pipeline s,
    runCalls_done_of_returns c pipeline s, ?_, ?_, ?_⟩
  · intro i j hi hj
    have h6 := pipeline_resetRestShape_at (prefix_getElem? hpre hi)
    have h5 := pipeline_applyPlasticity_at (prefix_getElem? hpre hj)
    omega
  · intro hmem
    obtain ⟨i, hi⟩ := List.getElem?_of_mem hmem
    have h6 := pipeline_resetRestShape_at (prefix_getElem? hpre hi)
    subst h6
    have hlen : 6 < (runCalls c pipeline s).calls.length := by
      rcases Nat.lt_or_ge 6 (runCalls c pipeline s).calls.length with h | h
      · exact h
      · rw [List.getElem?_eq_none h] at hi
        cases hi
    have h5 : (runCalls c pipeline s).calls[5]? = pipeline[5]? :=
      prefix_getElem?_lt hpre (by omega)
    exact List.getElem?_mem (h5.trans rfl)
  · intro k hk
    have hall : ∀ k ∈ pipeline, k.receiver ≠ Receiver.m_pbdModule := by decide
    exact hall k (hpre.subset hk)

/-- C1, at a concrete input: with collaborators that all return (one of them
reporting failure by its status), `advance` on a one-particle body returns after
exactly the nine calls. -/
theorem advance_call_sequence_witness :
    (ParticleViscoplasticBody.advance integrateFails 0 body1).value = some () ∧
    (ParticleViscoplasticBody.advance integrateFails 0 body1).calls = pipeline :=
  ⟨rfl, (advance_call_sequence integrateFails 0 body1).2.1 rfl⟩

/-- C5 as stated fails: the integrator's `integrate()`, second of the nine steps,
reports failure on the one-particle body, and `advance` still makes all nine calls,
seven of them after the failed one, and returns as if nothing had happened. -/
theorem advance_not_fail_fast :
    pipeline[1]? = some (op Receiver.m_integrator Method.integrate) ∧
    integrateFails (op Receiver.m_integrator Method.integrate) body1 =
      Outcome.returned false body1 ∧
    (ParticleViscoplasticBody.advance integrateFails 0 body1).calls = pipeline ∧
    ((ParticleViscoplasticBody.advance integrateFails 0 body1).calls.drop 2).length = 7 ∧
    (ParticleViscoplasticBody.advance integrateFails 0 body1).value = some () :=
  ⟨rfl, rfl, rfl, rfl, rfl⟩

/-- C5, amended: `advance` looks at no status.  When every collaborator call returns,
whatever it reports, all nine calls are made and `advance` returns.  Only a call that
does not return (throws) cuts the step short: it is then the last call made, the
calls made are the steps up to and including it, `advance` does not return and the
body stays in the state that call left (no rollback).  Every call of the log ran on
the state the previous one left: the first on the state `advance` started from, each
later one on the state the call before it left, after that call returned; and the
state `advance` ends in, returning or not, is the one its last call left. -/
theorem advance_aborts_on_throw_only {μ : Type} (c : Collab μ) (dt : Real)
    (s : ParticleViscoplasticBody μ) :
    ((∀ k ∈ pipeline, ∀ s0, ∃ b s1, c k s0 = Outcome.returned b s1) →
      (ParticleViscoplasticBody.advance c dt s).calls = pipeline ∧
      (ParticleViscoplasticBody.advance c dt s).value = some ()) ∧
    (∀ (n : Nat) (e : Event μ),
      (ParticleViscoplasticBody.advance c dt s).log[n]? = some e →
      c e.call e.pre = Outcome.thrown e.post →
        (ParticleViscoplasticBody.advance c dt s).value = none ∧
        (ParticleViscoplasticBody.advance c dt s).state = e.post ∧
        (ParticleViscoplasticBody.advance c dt s).calls = pipeline.take (n + 1)) ∧
    ((ParticleViscoplasticBody.advance c dt s).value = none →
      ∃ e, (ParticleViscoplasticBody.advance c dt s).log.getLast? = some e ∧
        c e.call e.pre = Outcome.thrown e.post) ∧
    (∀ e ∈ (ParticleViscoplasticBody.advance c dt s).log,
      (∃ b, c e.call e.pre = Outcome.returned b e.post) ∨
        c e.call e.pre = Outcome.thrown e.post) ∧
    (∀ e : Event μ, (ParticleViscoplasticBody.advance c dt s).log[0]? = some e →
      e.pre = s) ∧
    (∀ (i : Nat) (e e' : Event μ),
      (ParticleViscoplasticBody.advance c dt s).log[i]? = some e →
      (ParticleViscoplasticBody.advance c dt s).log[i + 1]? = some e' →
        e'.pre = e.post ∧ ∃ b, c e.call e.pre = Outcome.returned b e.post) ∧
    (∀ e : Event μ, (ParticleViscoplasticBody.advance c dt s).log.getLast? = some e →
      (ParticleViscoplasticBody.advance c dt s).state = e.post) := by
  rw [advance_eq_runCalls]
  refine ⟨fun h => ?_, runCalls_thrown c pipeline s, runCalls_aborted c pipeline s,
    runCalls_log_faithful c pipeline s, runCalls_log_head c pipeline s,
    runCalls_log_chain c pipeline s, runCalls_state_last c pipeline s⟩
  have hdone := runCalls_done_of_returns c pipeline s h
  exact ⟨runCalls_calls_of_done c pipeline s hdone, hdone⟩

/-- C5, amended, at a concrete input: when the neighbor query throws in its first
`compute()`, third of the nine steps, `advance` is left there after three calls.  And
with a neighbor query that returns and writes a new list at every `compute()`, the
body ends with the list of the second `compute()`, built on that of the first. -/
theorem advance_aborts_on_throw_only_witness :
    ((ParticleViscoplasticBody.advance computeThrows 0 body1).value = none ∧
      (ParticleViscoplasticBody.advance computeThrows 0 body1).state = body1 ∧
      (ParticleViscoplasticBody.advance computeThrows 0 body1).calls = pipeline.take 3) ∧
    (ParticleViscoplasticBody.advance freshQuery 0 body1).state.m_neighborhood =
      [[2], [1], []] :=
  ⟨(advance_aborts_on_throw_only computeThrows 0 body1).2.1 2
    ⟨op Receiver.m_nbrQuery Method.compute, body1, body1⟩ rfl rfl, rfl⟩

/-- C10: `advance` does not use its argument: for any two timesteps the calls made,
the states they ran on and left, and the outcome are the same, and every call made is
made without argument. -/
theorem advance_ignores_dt {μ : Type} (c : Collab μ) (dt1 dt2 : Real)
    (s : ParticleViscoplasticBody μ) :
    ParticleViscoplasticBody.advance c dt1 s = ParticleViscoplasticBody.advance c dt2 s ∧
    (∀ k ∈ (ParticleViscoplasticBody.advance c dt1 s).calls, k.arg = Arg.none) := by
  refine ⟨rfl, ?_⟩
  rw [advance_eq_runCalls]
  intro k hk
  have hall : ∀ k ∈ pipeline, k.arg = Arg.none := by decide
  exact hall k ((runCalls_calls_initial c pipeline s).subset hk)

/-! ## initialize -/

/-- C7: the calls `initialize()` makes are an initial segment of: setup of the
neighbor query, one `compute()` of it, initialization of the base class.  When
`initialize()` returns, all three were made in this order, each on the state the one
before left: the `compute()` returned before the base-class initialization began. -/
theorem initialize_order {μ : Type} (c : Collab μ) (s : ParticleViscoplasticBody μ) :
    ( ParticleViscoplasticBody.initialize c s).calls <+: initSequence ∧
    (∀ b, ( ParticleViscoplasticBody.initialize c s).value = some b →
      ∃ e0 e1 e2 : Event μ,
        ( ParticleViscoplasticBody.initialize c s).log = [e0, e1, e2] ∧
        [e0.call, e1.call, e2.call] = initSequence ∧
        e0.pre = s ∧ e1.pre = e0.post ∧ e2.pre = e1.post ∧
        ( ParticleViscoplasticBody.initialize c s).state = e2.post ∧
        (∃ b1, c (op Receiver.m_nbrQuery Method.compute) e0.post =
          Outcome.returned b1 e1.post)) := by
  unfold ParticleViscoplasticBody.initialize
  simp only [invoke_bind]
  cases h0 : c ⟨Receiver.m_nbrQuery, Method.initialize_, Arg.none⟩ s with
  | thrown s1 => simp [Result.calls, Result.log, Result.value, initSequence, op]
  | returned b0 s1 =>
    dsimp only
    cases h1 : c ⟨Receiver.m_nbrQuery, Method.compute, Arg.none⟩ s1 with
    | thrown s2 =>
      simp [Result.calls, Result.log, Result.value, Result.prepend, initSequence, op]
    | returned b1 s2 =>
      dsimp only
      unfold invoke
      cases h2 : c ⟨Receiver.ParticleSystem, Method.initialize_, Arg.none⟩ s2 with
      | thrown s3 =>
        simp [Result.calls, Result.log, Result.value, Result.prepend, initSequence, op]
      | returned b2 s3 =>
        refine ⟨by simp [Result.calls, Result.log, Result.prepend, initSequence, op], ?_⟩
        intro b _
        exact ⟨⟨_, s, s1⟩, ⟨_, s1, s2⟩, ⟨_, s2, s3⟩, rfl, rfl, rfl, rfl, rfl, rfl, b1, h1⟩

/-- C7, at a concrete input: on the one-particle body, with collaborators that all
return, `initialize()` returns after exactly the three calls. -/
theorem initialize_order_witness :
    ( ParticleViscoplasticBody.initialize setupFails body1).value = some true ∧
    ( ParticleViscoplasticBody.initialize setupFails body1).calls = initSequence :=
  ⟨rfl, by
    obtain ⟨e0, e1, e2, hlog, hcalls, _⟩ :=
      (initialize_order setupFails body1).2 true rfl
    simp [Result.calls, hlog, hcalls]⟩

/-- C4 as stated fails: the one-time setup of the neighbor query reports failure on
the one-particle body, the base-class initialization succeeds, and `initialize()`
returns `true`. -/
theorem initialize_hides_setup_failure :
    initSequence[0]? = some (op Receiver.m_nbrQuery Method.initialize_) ∧
    setupFails (op Receiver.m_nbrQuery Method.initialize_) body1 =
      Outcome.returned false body1 ∧
    ( ParticleViscoplasticBody.initialize setupFails body1).calls = initSequence ∧
    ( ParticleViscoplasticBody.initialize setupFails body1).value = some true :=
  ⟨rfl, rfl, rfl, rfl⟩

/-- C4, amended: `initialize()` returns what the base-class initialization returns
and nothing else.  The statuses `b1` and `b2` of the setup of the neighbor query and
of its `compute()` are dropped: once both calls have returned, `initialize()` returns
`b3`, the status of the base-class initialization, so `false` exactly when that one
fails. -/
theorem initialize_returns_base_status {μ : Type} (c : Collab μ)
    (s s1 s2 s3 : ParticleViscoplasticBody μ) (b1 b2 b3 : Bool)
    (h1 : c (op Receiver.m_nbrQuery Method.initialize_) s = Outcome.returned b1 s1)
    (h2 : c (op Receiver.m_nbrQuery Method.compute) s1 = Outcome.returned b2 s2)
    (h3 : c (op Receiver.ParticleSystem Method.initialize_) s2 = Outcome.returned b3 s3) :
    ( ParticleViscoplasticBody.initialize c s).value = some b3 ∧
    ( ParticleViscoplasticBody.initialize c s).state = s3 := by
  unfold ParticleViscoplasticBody.initialize
  unfold op at h1 h2 h3
  simp only [invoke_bind, h1, h2]
  unfold invoke
  simp [h3, Result.value, Result.state, Result.prepend]

/-- C4, amended, at a concrete input: the setup of the neighbor query reports
failure, the base-class initialization reports success, and `initialize()` returns
`true`. -/
theorem initialize_returns_base_status_witness :
    ( ParticleViscoplasticBody.initialize setupFails body1).value = some true ∧
    ( ParticleViscoplasticBody.initialize setupFails body1).state = body1 :=
  initialize_returns_base_status setupFails body1 body1 body1 body1 false true true
    rfl rfl rfl

/-! ## The wiring -/

theorem edge_depth {a b : FieldId} (h : Edge a b) : depth a < depth b := by
  have hall : ∀ e ∈ wiring, depth e.1 < depth e.2 := by decide
  exact hall (a, b) h

theorem path_depth {a b : FieldId} (h : Relation.TransGen Edge a b) : depth a < depth b := by
  induction h with
  | single h => exact edge_depth h
  | tail _ h ih => exact Nat.lt_trans ih (edge_depth h)

/-- C6: the constructor registers five modules, each once, and the sixteen
connections the specification lists and no others, none twice.  Every input of every
module is the target of exactly one connection, every connection ends in such an
input, and no chain of connections leads from a field back to itself. -/
theorem ctor_wiring :
    modulesOf ctor = [Owner.m_integrator, Owner.m_nbrQuery, Owner.m_plasticity,
      Owner.m_pbdModule, Owner.m_visModule] ∧
    (modulesOf ctor).Nodup ∧
    wiring.Perm specWiring ∧
    wiring.length = 16 ∧
    wiring.Nodup ∧
    (∀ f ∈ moduleInputs, (feeders wiring f).length = 1) ∧
    (∀ e ∈ wiring, e.2 ∈ moduleInputs) ∧
    (∀ f : FieldId, ¬ Relation.TransGen Edge f f) := by
  refine ⟨rfl, by decide, by decide, rfl, by decide, by decide, by decide, ?_⟩
  intro f h
  exact Nat.lt_irrefl _ (path_depth h)

/-- C3: the radius of the neighbor query and the smoothing lengths of the density
projection and of the viscosity module are each fed by one connection, from the
horizon of the body; whatever value `h` the horizon holds, all three observe `h`.
The constructor writes 0.0085, a positive value, to the horizon, and writes no other
field: no module is given a value of its own. -/
theorem horizon_shared {μ : Type} (s base : ParticleViscoplasticBody μ) (h : Real)
    (surfaceMapping : List Coord → List Coord) :
    feeders wiring ⟨Owner.m_nbrQuery, Member.m_radius⟩ = [own Member.m_horizon] ∧
    feeders wiring ⟨Owner.m_pbdModule, Member.m_smoothingLength⟩ = [own Member.m_horizon] ∧
    feeders wiring ⟨Owner.m_visModule, Member.m_smoothingLength⟩ = [own Member.m_horizon] ∧
    ({ s with m_horizon := h }).observe ⟨Owner.m_nbrQuery, Member.m_radius⟩ = Value.real h ∧
    ({ s with m_horizon := h }).observe ⟨Owner.m_pbdModule, Member.m_smoothingLength⟩ =
      Value.real h ∧
    ({ s with m_horizon := h }).observe ⟨Owner.m_visModule, Member.m_smoothingLength⟩ =
      Value.real h ∧
    (base.construct surfaceMapping).m_horizon = 85 / 10000 ∧
    (0 : Real) < (base.construct surfaceMapping).m_horizon ∧
    writtenBy ctor = [(own Member.m_horizon, 85 / 10000)] := by
  have hc : (base.construct surfaceMapping).m_horizon = 85 / 10000 := rfl
  refine ⟨by decide, by decide, by decide, rfl, rfl, rfl, hc, ?_, rfl⟩
  rw [hc]
  norm_num

/-! ## Which neighborhood each step reads -/

/-- A run of `k :: ks` that reaches its end: `k` returned, and the rest ran to its
end on the state `k` left. -/
theorem runCalls_cons_done {μ : Type} (c : Collab μ) (k : Call) (ks : List Call)
    (s : ParticleViscoplasticBody μ) (h : (runCalls c (k :: ks) s).value = some ()) :
    ∃ b s1, c k s = Outcome.returned b s1 ∧ (runCalls c ks s1).value = some () ∧
      (runCalls c (k :: ks) s).log = ⟨k, s, s1⟩ :: (runCalls c ks s1).log := by
  have hdef : runCalls c (k :: ks) s =
      match c k s with
      | Outcome.returned _ s1 => (runCalls c ks s1).prepend ⟨k, s, s1⟩
      | Outcome.thrown s1 => Result.aborted s1 [⟨k, s, s1⟩] := rfl
  rw [hdef] at h ⊢
  cases hk : c k s with
  | returned b s1 =>
    rw [hk] at h
    simp only [value_prepend] at h
    exact ⟨b, s1, rfl, h, by simp only [log_prepend]⟩
  | thrown s1 =>
    rw [hk] at h
    simp [Result.value] at h

theorem observe_plasticity_neighborhood {μ : Type} (s : ParticleViscoplasticBody μ) :
    s.observe ⟨Owner.m_plasticity, Member.m_neighborhood⟩ =
      Value.neighbors s.m_neighborhood := rfl

theorem observe_visModule_neighborhood {μ : Type} (s : ParticleViscoplasticBody μ) :
    s.observe ⟨Owner.m_visModule, Member.m_neighborhood⟩ =
      Value.neighbors s.m_neighborhood := rfl

/-- C2: in an `advance` that returns, with an elastoplasticity module that leaves the
output field of the neighbor query as it finds it, `compute()` is called exactly
twice (third and fifth of the nine calls `e0` ... `e8`); `solveElasticity` (`e3`)
observes at its neighborhood input what the first `compute()` (`e2`) left in that
field, and `applyPlasticity` (`e5`), `resetRestShape` (`e6`) and the viscosity
module's `constrain` (`e7`) observe at theirs what the second `compute()` (`e4`)
left. -/
theorem advance_neighborhood_reads {μ : Type} (c : Collab μ) (dt : Real)
    (s : ParticleViscoplasticBody μ)
    (hrun : (ParticleViscoplasticBody.advance c dt s).value = some ())
    (hframe : ∀ (k : Call) (s0 s1 : ParticleViscoplasticBody μ) (b : Bool),
      k.receiver = Receiver.m_plasticity → c k s0 = Outcome.returned b s1 →
      s1.m_neighborhood = s0.m_neighborhood) :
    (ParticleViscoplasticBody.advance c dt s).calls.count
      (op Receiver.m_nbrQuery Method.compute) = 2 ∧
    ∃ e0 e1 e2 e3 e4 e5 e6 e7 e8 : Event μ,
      (ParticleViscoplasticBody.advance c dt s).log = [e0, e1, e2, e3, e4, e5, e6, e7, e8] ∧
      [e0.call, e1.call, e2.call, e3.call, e4.call, e5.call, e6.call, e7.call, e8.call] =
        pipeline ∧
      e3.pre.observe ⟨Owner.m_plasticity, Member.m_neighborhood⟩ =
        Value.neighbors e2.post.m_neighborhood ∧
      e5.pre.observe ⟨Owner.m_plasticity, Member.m_neighborhood⟩ =
        Value.neighbors e4.post.m_neighborhood ∧
      e6.pre.observe ⟨Owner.m_plasticity, Member.m_neighborhood⟩ =
        Value.neighbors e4.post.m_neighborhood ∧
      e7.pre.observe ⟨Owner.m_visModule, Member.m_neighborhood⟩ =
        Value.neighbors e4.post.m_neighborhood := by
  rw [advance_eq_runCalls] at hrun ⊢
  refine ⟨by rw [runCalls_calls_of_done c pipeline s hrun]; decide, ?_⟩
  unfold pipeline at hrun ⊢
  obtain ⟨b0, s1, h0, r0, l0⟩ := runCalls_cons_done c _ _ s hrun
  obtain ⟨b1, s2, h1, r1, l1⟩ := runCalls_cons_done c _ _ s1 r0
  obtain ⟨b2, s3, h2, r2, l2⟩ := runCalls_cons_done c _ _ s2 r1
  obtain ⟨b3, s4, h3, r3, l3⟩ := runCalls_cons_done c _ _ s3 r2
  obtain ⟨b4, s5, h4, r4, l4⟩ := runCalls_cons_done c _ _ s4 r3
  obtain ⟨b5, s6, h5, r5, l5⟩ := runCalls_cons_done c _ _ s5 r4
  obtain ⟨b6, s7, h6, r6, l6⟩ := runCalls_cons_done c _ _ s6 r5
  obtain ⟨b7, s8, h7, r7, l7⟩ := runCalls_cons_done c _ _ s7 r6
  obtain ⟨b8, s9, h8, r8, l8⟩ := runCalls_cons_done c _ _ s8 r7
  have l9 : (runCalls c [] s9).log = [] := rfl
  have n6 : s6.m_neighborhood = s5.m_neighborhood := hframe _ s5 s6 b5 rfl h5
  have n7 : s7.m_neighborhood = s6.m_neighborhood := hframe _ s6 s7 b6 rfl h6
  refine ⟨⟨op Receiver.m_integrator Method.begin_, s, s1⟩,
    ⟨op Receiver.m_integrator Method.integrate, s1, s2⟩,
    ⟨op Receiver.m_nbrQuery Method.compute, s2, s3⟩,
    ⟨op Receiver.m_plasticity Method.solveElasticity, s3, s4⟩,
    ⟨op Receiver.m_nbrQuery Method.compute, s4, s5⟩,
    ⟨op Receiver.m_plasticity Method.applyPlasticity, s5, s6⟩,
    ⟨op Receiver.m_plasticity Method.resetRestShape, s6, s7⟩,
    ⟨op Receiver.m_visModule Method.constrain, s7, s8⟩,
    ⟨op Receiver.m_integrator Method.end_, s8, s9⟩, ?_, rfl, ?_, ?_, ?_, ?_⟩
  · rw [l0, l1, l2, l3, l4, l5, l6, l7, l8, l9]
  · exact observe_plasticity_neighborhood s3
  · exact observe_plasticity_neighborhood s5
  · rw [observe_plasticity_neighborhood, n6]
  · rw [observe_visModule_neighborhood, n7, n6]

theorem freshQuery_frame (k : Call) (s0 s1 : ParticleViscoplasticBody Unit) (b : Bool)
    (hk : k.receiver = Receiver.m_plasticity)
    (h : freshQuery k s0 = Outcome.returned b s1) :
    s1.m_neighborhood = s0.m_neighborhood := by
  unfold freshQuery at h
  have hne : k ≠ op Receiver.m_nbrQuery Method.compute := by
    intro heq
    rw [heq] at hk
    cases hk
  rw [if_neg hne] at h
  cases h
  rfl

/-- C2, at a concrete input: a neighbor query that writes a new list at every
`compute()`, on the one-particle body.  The second `compute()` leaves a neighborhood
other than the first, and it is the second one that the plasticity steps and the
viscosity step see. -/
theorem advance_neighborhood_reads_witness :
    (ParticleViscoplasticBody.advance freshQuery 0 body1).value = some () ∧
    (ParticleViscoplasticBody.advance freshQuery 0 body1).calls.count
      (op Receiver.m_nbrQuery Method.compute) = 2 ∧
    (ParticleViscoplasticBody.advance freshQuery 0 body1).log.map
        (fun e => e.pre.observe ⟨Owner.m_plasticity, Member.m_neighborhood⟩) =
      [ Value.neighbors [[]], Value.neighbors [[]], Value.neighbors [[]],
        Value.neighbors [[1], []], Value.neighbors [[1], []],
        Value.neighbors [[2], [1], []], Value.neighbors [[2], [1], []],
        Value.neighbors [[2], [1], []], Value.neighbors [[2], [1], []] ] :=
  ⟨rfl, (advance_neighborhood_reads freshQuery 0 body1 rfl freshQuery_frame).1, rfl⟩

/-! ## updateTopology -/

/-- Applying mappings from the particle set to the surface mesh leaves everything
but the mesh as it is; the mesh is what the last mapping makes of the particle set. -/
theorem foldl_apply_surface {μ : Type} (ms : List TopologyMapping)
    (st : ParticleViscoplasticBody μ)
    (h : ∀ m ∈ ms, m.src = TopoId.m_pSet ∧ m.tgt = TopoId.triSet) :
    ms.foldl (fun st m => m.apply st) st =
      { st with triSet := ms.foldl (fun _ m => m.push st.m_pSet) st.triSet } := by
  induction ms generalizing st with
  | nil => rfl
  | cons m ms ih =>
    obtain ⟨hs, ht⟩ := h m (List.mem_cons_self m ms)
    have hm : m.apply st = { st with triSet := m.push st.m_pSet } := by
      simp [TopologyMapping.apply, hs, ht, ParticleViscoplasticBody.points,
        ParticleViscoplasticBody.setPoints]
    rw [List.foldl_cons, hm, ih _ (fun m' hm' => h m' (List.mem_cons_of_mem m hm'))]
    rfl

theorem foldl_last_indep {α β : Type} (g : α → β) (ms : List α) (a b : β)
    (h : ms ≠ []) :
    ms.foldl (fun _ m => g m) a = ms.foldl (fun _ m => g m) b := by
  cases ms with
  | nil => exact absurd rfl h
  | cons m ms => rfl

/-- What one `updateTopology()` leaves, for mappings from the particle set to the
surface mesh. -/
theorem updateTopology_eq {μ : Type} (s : ParticleViscoplasticBody μ)
    (hmap : ∀ m ∈ s.topologyMappings, m.src = TopoId.m_pSet ∧ m.tgt = TopoId.triSet) :
    s.updateTopology =
      { s with m_pSet := s.m_position
               triSet := s.topologyMappings.foldl (fun _ m => m.push s.m_position) s.triSet } := by
  unfold ParticleViscoplasticBody.updateTopology
  rw [foldl_apply_surface _ _ hmap]
  rfl

/-- C8: when every registered mapping maps the particle set of the body to the
surface mesh (what section 3 of the specification calls a topology mapping, and what
the one the constructor registers is), a second `updateTopology()`
right after a first leaves the body exactly as the first left it: same particle-set
points, same mesh vertices.  A call leaves the position field as it is, copies it
into the particle set, and applies the mappings first to last (the mesh ends as the
last one makes it). -/
theorem updateTopology_idempotent {μ : Type} (s : ParticleViscoplasticBody μ)
    (hmap : ∀ m ∈ s.topologyMappings, m.src = TopoId.m_pSet ∧ m.tgt = TopoId.triSet) :
    s.updateTopology.updateTopology = s.updateTopology ∧
    s.updateTopology.updateTopology.m_pSet = s.updateTopology.m_pSet ∧
    s.updateTopology.updateTopology.triSet = s.updateTopology.triSet ∧
    s.updateTopology.m_position = s.m_position ∧
    s.updateTopology.m_pSet = s.m_position ∧
    s.updateTopology.triSet =
      s.topologyMappings.foldl (fun _ m => m.push s.m_position) s.triSet ∧
    s.updateTopology =
      s.topologyMappings.foldl (fun st m => m.apply st) s.copyPosition := by
  have h1 := updateTopology_eq s hmap
  have h2 : s.updateTopology.updateTopology = s.updateTopology := by
    have hmap' : ∀ m ∈ s.updateTopology.topologyMappings,
        m.src = TopoId.m_pSet ∧ m.tgt = TopoId.triSet := by
      rw [h1]
      exact hmap
    rw [updateTopology_eq s.updateTopology hmap', h1]
    by_cases hnil : s.topologyMappings = []
    · simp [hnil]
    · simp only
      rw [foldl_last_indep (fun m => m.push s.m_position) s.topologyMappings _ s.triSet hnil]
  refine ⟨h2, by rw [h2], by rw [h2], by rw [h1], by rw [h1], by rw [h1], rfl⟩

/-- C8, at a concrete input: the body the constructor makes of the two-particle
body, with a surface mapping that lifts every point by one. -/
theorem updateTopology_idempotent_witness :
    (∀ m ∈ (body2.construct (fun pts => pts.map (fun p => p + (0, 0, 1)))).topologyMappings,
      m.src = TopoId.m_pSet ∧ m.tgt = TopoId.triSet) ∧
    (body2.construct
      (fun pts => pts.map (fun p => p + (0, 0, 1)))).updateTopology.updateTopology.triSet =
    (body2.construct (fun pts => pts.map (fun p => p + (0, 0, 1)))).updateTopology.triSet ∧
    (body2.construct (fun pts => pts.map (fun p => p + (0, 0, 1)))).updateTopology.m_pSet =
      [(1, 0, 0), (0, 1, 0)] := by
  have hmap : ∀ m ∈ (body2.construct
      (fun pts => pts.map (fun p => p + (0, 0, 1)))).topologyMappings,
      m.src = TopoId.m_pSet ∧ m.tgt = TopoId.triSet := by
    intro m hm
    have hl : (body2.construct (fun pts => pts.map (fun p => p + (0, 0, 1)))).topologyMappings
        = [⟨TopoId.m_pSet, TopoId.triSet, fun pts => pts.map (fun p => p + (0, 0, 1))⟩] := rfl
    rw [hl, List.mem_singleton] at hm
    subst hm
    exact ⟨rfl, rfl⟩
  exact ⟨hmap, (updateTopology_idempotent _ hmap).2.2.1,
    (updateTopology_idempotent _ hmap).2.2.2.2.1⟩

/-! ## translate and scale -/

theorem map_add_neg (t : Coord) (pts : List Coord) :
    (pts.map (fun p => p + t)).map (fun p => p + -t) = pts := by
  rw [List.map_map]
  conv_rhs => rw [← List.map_id pts]
  apply List.map_congr_left
  intro p _
  simp

/-- C9: `translate(t)` calls the translation of the mesh and then that of the base
class, both with the same `t`, and returns what the base class returns; `scale(x)`
does the same with the factor `x`.  With transforms that move every vertex and every
point by the offset (`rigid`), `translate(t)` moves the mesh vertices and the
particle-set points by `t`, and `translate(-t)` after it gives back the body it
started from: particle-set points, mesh vertices and all the rest. -/
theorem translate_scale_both {μ : Type} (c rest : Collab μ) (t : Coord) (x : Real)
    (s : ParticleViscoplasticBody μ) :
    (ParticleViscoplasticBody.translate c t s).calls <+:
      [⟨Receiver.triSet, Method.translate, Arg.coord t⟩,
       ⟨Receiver.ParticleSystem, Method.translate, Arg.coord t⟩] ∧
    (∀ b, (ParticleViscoplasticBody.translate c t s).value = some b →
      (ParticleViscoplasticBody.translate c t s).calls =
        [⟨Receiver.triSet, Method.translate, Arg.coord t⟩,
         ⟨Receiver.ParticleSystem, Method.translate, Arg.coord t⟩] ∧
      ∃ e, (ParticleViscoplasticBody.translate c t s).log.getLast? = some e ∧
        e.call = ⟨Receiver.ParticleSystem, Method.translate, Arg.coord t⟩ ∧
        c e.call e.pre = Outcome.returned b e.post) ∧
    (ParticleViscoplasticBody.scale c x s).calls <+:
      [⟨Receiver.triSet, Method.scale, Arg.real x⟩,
       ⟨Receiver.ParticleSystem, Method.scale, Arg.real x⟩] ∧
    (∀ b, (ParticleViscoplasticBody.scale c x s).value = some b →
      (ParticleViscoplasticBody.scale c x s).calls =
        [⟨Receiver.triSet, Method.scale, Arg.real x⟩,
         ⟨Receiver.ParticleSystem, Method.scale, Arg.real x⟩] ∧
      ∃ e, (ParticleViscoplasticBody.scale c x s).log.getLast? = some e ∧
        e.call = ⟨Receiver.ParticleSystem, Method.scale, Arg.real x⟩ ∧
        c e.call e.pre = Outcome.returned b e.post) ∧
    (ParticleViscoplasticBody.translate (rigid rest) t s).state =
      { s with triSet := s.triSet.map (fun p => p + t)
               m_pSet := s.m_pSet.map (fun p => p + t) } ∧
    (ParticleViscoplasticBody.translate (rigid rest) (-t)
      (ParticleViscoplasticBody.translate (rigid rest) t s).state).state = s ∧
    (ParticleViscoplasticBody.scale (rigid rest) x s).state =
      { s with triSet := s.triSet.map (fun p => x • p)
               m_pSet := s.m_pSet.map (fun p => x • p) } := by
  refine ⟨?_, ?_, ?_, ?_, rfl, ?_, rfl⟩
  · unfold ParticleViscoplasticBody.translate
    simp only [invoke_bind]
    cases h0 : c ⟨Receiver.triSet, Method.translate, Arg.coord t⟩ s with
    | thrown s1 => simp [Result.calls, Result.log]
    | returned b0 s1 =>
      dsimp only
      unfold invoke
      cases h1 : c ⟨Receiver.ParticleSystem, Method.translate, Arg.coord t⟩ s1 <;>
        simp [Result.calls, Result.log, Result.prepend]
  · intro b
    unfold ParticleViscoplasticBody.translate
    simp only [invoke_bind]
    cases h0 : c ⟨Receiver.triSet, Method.translate, Arg.coord t⟩ s with
    | thrown s1 => simp [Result.value]
    | returned b0 s1 =>
      dsimp only
      unfold invoke
      cases h1 : c ⟨Receiver.ParticleSystem, Method.translate, Arg.coord t⟩ s1 with
      | thrown s2 => simp [Result.value, Result.prepend]
      | returned b1 s2 =>
        simp only [Result.value, Result.prepend, Option.some.injEq]
        intro hb
        subst hb
        exact ⟨by simp [Result.calls, Result.log], ⟨_, s1, s2⟩,
          by simp [Result.log], rfl, h1⟩
  · unfold ParticleViscoplasticBody.scale
    simp only [invoke_bind]
    cases h0 : c ⟨Receiver.triSet, Method.scale, Arg.real x⟩ s with
    | thrown s1 => simp [Result.calls, Result.log]
    | returned b0 s1 =>
      dsimp only
      unfold invoke
      cases h1 : c ⟨Receiver.ParticleSystem, Method.scale, Arg.real x⟩ s1 <;>
        simp [Result.calls, Result.log, Result.prepend]
  · intro b
    unfold ParticleViscoplasticBody.scale
    simp only [invoke_bind]
    cases h0 : c ⟨Receiver.triSet, Method.scale, Arg.real x⟩ s with
    | thrown s1 => simp [Result.value]
    | returned b0 s1 =>
      dsimp only
      unfold invoke
      cases h1 : c ⟨Receiver.ParticleSystem, Method.scale, Arg.real x⟩ s1 with
      | thrown s2 => simp [Result.value, Result.prepend]
      | returned b1 s2 =>
        simp only [Result.value, Result.prepend, Option.some.injEq]
        intro hb
        subst hb
        exact ⟨by simp [Result.calls, Result.log], ⟨_, s1, s2⟩,
          by simp [Result.log], rfl, h1⟩
  · have h1 : (ParticleViscoplasticBody.translate (rigid rest) t s).state =
        { s with triSet := s.triSet.map (fun p => p + t)
                 m_pSet := s.m_pSet.map (fun p => p + t) } := rfl
    have h2 : ∀ s' : ParticleViscoplasticBody μ,
        (ParticleViscoplasticBody.translate (rigid rest) (-t) s').state =
        { s' with triSet := s'.triSet.map (fun p => p + -t)
                  m_pSet := s'.m_pSet.map (fun p => p + -t) } := fun _ => rfl
    rw [h2, h1]
    simp only [map_add_neg]

/-- C9, at a concrete input: the two-particle body, mapped by the constructor, moved
by (1, 2, 3) and back. -/
theorem translate_scale_both_witness :
    (ParticleViscoplasticBody.translate (rigid freshQuery) (1, 2, 3) body2).value = some true ∧
    (ParticleViscoplasticBody.translate (rigid freshQuery) (-(1, 2, 3))
      (ParticleViscoplasticBody.translate (rigid freshQuery) (1, 2, 3) body2).state).state =
      body2 :=
  ⟨rfl, (translate_scale_both freshQuery freshQuery (1, 2, 3) 2 body2).2.2.2.2.2.1⟩

end Physika
